import Mathlib

/-!
Shallow embedding of the TaxiSimulation repository (location.py, rider.py,
driver.py, dispatcher.py, monitor.py, event.py, container.py).

Python's mutable objects are modelled by stores keyed by object identity
(a `String` key plays the role of the object's address; actor records carry
their own `id` field exactly as in the source).  Computations that can raise
an exception in Python (`min([])`, division by zero, attribute access on
`None`) return `Option`, with `none` for the raised exception.
-/

namespace TaxiSim

/-- Location (location.py): integer row and column. -/
structure Location where
  row : Int
  column : Int
deriving DecidableEq

/-- manhattan_distance (location.py): abs(or-dr) + abs(oc-dc). -/
def manhattan_distance (origin destination : Location) : Nat :=
  (origin.row - destination.row).natAbs + (origin.column - destination.column).natAbs

/-- Rider status constants (rider.py): WAITING, CANCELLED, SATISFIED. -/
inductive Status
  | waiting
  | cancelled
  | satisfied
deriving DecidableEq

/-- Rider (rider.py). -/
structure Rider where
  id : String
  origin : Location
  destination : Location
  status : Status
  patience : Nat
deriving DecidableEq

/-- Rider.__init__ (rider.py): status starts as WAITING. -/
def Rider.init (name : String) (origin destination : Location) (patience : Nat) : Rider :=
  ⟨name, origin, destination, .waiting, patience⟩

/-- Driver (driver.py).  `location` is an `Option` because `end_drive`/`end_ride`
assign `self.location = self.destination`, and `destination` can be `None`.
`speed` is a natural number (the data model's positive integer; speed 0 makes
`get_travel_time` raise `ZeroDivisionError`, modelled as `none`). -/
structure Driver where
  id : String
  location : Option Location
  speed : Nat
  destination : Option Location
  is_idle : Bool
deriving DecidableEq

/-- Driver.__init__ (driver.py): destination None, is_idle True. -/
def Driver.init (identifier : String) (location : Location) (speed : Nat) : Driver :=
  ⟨identifier, some location, speed, none, true⟩

/-- Python's `round` (banker's rounding) applied to the exact quotient m / s for
s > 0: round to the nearest integer, ties to the even neighbour.  This models
`(manhattan_distance(...) / self.speed).__round__()` from driver.py, where the
float division of these machine-sized integers is exact whenever the quotient
is a representable tie. -/
def roundHalfEven (m s : Nat) : Nat :=
  let q := m / s
  let r := m % s
  if 2 * r < s then q
  else if s < 2 * r then q + 1
  else if q % 2 = 0 then q else q + 1

/-- Driver.get_travel_time (driver.py): round(manhattan distance / speed).
`none` models the AttributeError on a `None` location and the
ZeroDivisionError on speed 0. -/
def get_travel_time (d : Driver) (destination : Location) : Option Nat :=
  match d.location with
  | none => none
  | some l => if d.speed = 0 then none else some (roundHalfEven (manhattan_distance l destination) d.speed)

/-- Driver.start_drive (driver.py): set destination, clear idle, return the
travel time to the destination. -/
def start_drive (d : Driver) (location : Location) : Option (Driver × Nat) :=
  let d1 : Driver := { d with destination := some location, is_idle := false }
  (get_travel_time d1 location).map (fun t => (d1, t))

/-- Driver.end_drive (driver.py): location := destination. -/
def end_drive (d : Driver) : Driver :=
  { d with location := d.destination }

/-- Driver.start_ride (driver.py): idle := False, location := rider.origin,
destination := rider.destination, return travel time to the destination. -/
def start_ride (d : Driver) (r : Rider) : Option (Driver × Nat) :=
  let d1 : Driver := { d with is_idle := false, location := some r.origin, destination := some r.destination }
  (get_travel_time d1 r.destination).map (fun t => (d1, t))

/-- Driver.end_ride (driver.py): location := destination, is_idle := True.
Note the source does NOT clear `destination` here; its caller (Dropoff.do)
does. -/
def end_ride (d : Driver) : Driver :=
  { d with location := d.destination, is_idle := true }

/-- Activity (monitor.py) description constants. -/
inductive Desc
  | request
  | cancel
  | pickup
  | dropoff
deriving DecidableEq

/-- Activity (monitor.py): stores description, time, id, location. -/
structure Activity where
  description : Desc
  time : Nat
  id : String
  location : Option Location
deriving DecidableEq

/-- Monitor._activities (monitor.py): per category, a mapping from actor
identifier to the ordered list of its activities, as an association list in
dictionary insertion order. -/
structure Monitor where
  riderActs : List (String × List Activity)
  driverActs : List (String × List Activity)
deriving DecidableEq

/-- Monitor.notify (monitor.py) on one category's dictionary: create the
actor's list on first use, then append the activity. -/
def addActivity : List (String × List Activity) → String → Activity → List (String × List Activity)
  | [], i, a => [(i, [a])]
  | p :: rest, i, a => if p.1 == i then (p.1, p.2 ++ [a]) :: rest else p :: addActivity rest i a

/-- Monitor.notify with category RIDER. -/
def Monitor.notifyRider (m : Monitor) (t : Nat) (d : Desc) (i : String) (loc : Option Location) : Monitor :=
  { m with riderActs := addActivity m.riderActs i ⟨d, t, i, loc⟩ }

/-- Monitor.notify with category DRIVER. -/
def Monitor.notifyDriver (m : Monitor) (t : Nat) (d : Desc) (i : String) (loc : Option Location) : Monitor :=
  { m with driverActs := addActivity m.driverActs i ⟨d, t, i, loc⟩ }

/-- Lookup in an identity-keyed store (first entry with the given key). -/
def lookupStore {β : Type} : List (String × β) → String → Option β
  | [], _ => none
  | p :: rest, i => if p.1 = i then some p.2 else lookupStore rest i

/-- Write back a mutated object under its identity key. -/
def updateStore {β : Type} : List (String × β) → String → β → List (String × β)
  | [], _, _ => []
  | p :: rest, i, v => (if p.1 = i then (i, v) else p) :: updateStore rest i v

/-- The activity list recorded for one actor (empty if none). -/
def getActs (m : List (String × List Activity)) (i : String) : List Activity :=
  (lookupStore m i).getD []

/-- The shared mutable simulation state: the rider and driver object stores
(keyed by object identity), the Dispatcher's fields `_available_drivers`
(driver registry, registration order) and `_waiting_riders` (FIFO queue of
riders, as identity keys), and the Monitor. -/
structure SimState where
  riders : List (String × Rider)
  drivers : List (String × Driver)
  available_drivers : List String
  waiting_riders : List String
  monitor : Monitor
deriving DecidableEq

/-- The loop over `self._available_drivers` resolved through the object store:
the Python list holds the driver objects themselves; `none` only if a
registered key has no record (impossible in well-formed states). -/
def resolveDrivers : List String → List (String × Driver) → Option (List (String × Driver))
  | [], _ => some []
  | i :: is, store =>
    match lookupStore store i with
    | none => none
    | some d => (resolveDrivers is store).map (fun rest => (i, d) :: rest)

/-- The `DriverTimes` loop of Dispatcher.request_driver (dispatcher.py):
predicted travel times of the idle registered drivers, in registration order;
`none` if some idle driver's travel-time computation raises. -/
def idleTimes : List (String × Driver) → Location → Option (List Nat)
  | [], _ => some []
  | p :: ds, origin =>
    if p.2.is_idle then
      match get_travel_time p.2 origin with
      | none => none
      | some t => (idleTimes ds origin).map (fun rest => t :: rest)
    else idleTimes ds origin

/-- Python's `min` over a list of numbers; `none` models the ValueError raised
by `min([])`. -/
def minList : List Nat → Option Nat
  | [] => none
  | x :: xs =>
    match minList xs with
    | none => some x
    | some m => some (min x m)

/-- The final selection loop of Dispatcher.request_driver (dispatcher.py): it
re-scans ALL registered drivers (idle or not) and returns the first whose
travel time equals the minimum; `some none` if the loop falls through (the
Python function then returns None). -/
def selectFirst : List (String × Driver) → Location → Nat → Option (Option (String × Driver))
  | [], _, _ => some none
  | p :: ds, origin, shortest =>
    match get_travel_time p.2 origin with
    | none => none
    | some t => if t = shortest then some (some p) else selectFirst ds origin shortest

/-- Dispatcher.request_driver (dispatcher.py).  `rid` is the identity of the
rider object `r`.  Outer `none` models an uncaught exception (in particular
`min([])` when no registered driver is idle); otherwise the returned driver
(or None) together with the updated state. -/
def request_driver (s : SimState) (rid : String) (r : Rider) : Option (Option (String × Driver) × SimState) :=
  if s.available_drivers.length = 0 then
    some (none, { s with waiting_riders := s.waiting_riders ++ [rid] })
  else
    match resolveDrivers s.available_drivers s.drivers with
    | none => none
    | some ds =>
      match idleTimes ds r.origin with
      | none => none
      | some times =>
        match minList times with
        | none => none
        | some shortest =>
          match selectFirst ds r.origin shortest with
          | none => none
          | some od => some (od, s)

/-- Dispatcher.request_rider (dispatcher.py): register the driver if it is not
yet in `_available_drivers` (membership is by object identity, as Python's
`in` short-circuits on `x is e`), then dequeue the front of the waiting list
if any. -/
def request_rider (s : SimState) (did : String) : Option String × SimState :=
  let s1 := if did ∈ s.available_drivers then s
            else { s with available_drivers := s.available_drivers ++ [did] }
  match s1.waiting_riders with
  | [] => (none, s1)
  | rid :: rest => (some rid, { s1 with waiting_riders := rest })

/-- Dispatcher.cancel_ride (dispatcher.py): remove the rider's first occurrence
from the waiting list if present. -/
def cancel_ride (s : SimState) (rid : String) : SimState :=
  if rid ∈ s.waiting_riders then { s with waiting_riders := s.waiting_riders.erase rid } else s

/-- The five event kinds (event.py); actors referenced by object identity. -/
inductive EventKind
  | riderRequest (rider : String)
  | driverRequest (driver : String)
  | cancellation (rider : String)
  | pickup (rider driver : String)
  | dropoff (driver rider : String)
deriving DecidableEq

/-- Event (event.py): a timestamp plus kind-specific payload. -/
structure Event where
  timestamp : Nat
  kind : EventKind
deriving DecidableEq

/-- RiderRequest.do (event.py): notify REQUEST, ask the dispatcher for a
driver; if found the driver starts driving to the rider's origin and a Pickup
is scheduled; always a Cancellation at timestamp + patience. -/
def doRiderRequest (s : SimState) (t : Nat) (rid : String) : Option (SimState × List Event) :=
  match lookupStore s.riders rid with
  | none => none
  | some r =>
    let s1 := { s with monitor := s.monitor.notifyRider t .request r.id (some r.origin) }
    match request_driver s1 rid r with
    | none => none
    | some (found, s2) =>
      match found with
      | none => some (s2, [⟨t + r.patience, .cancellation rid⟩])
      | some (did, d) =>
        match start_drive d r.origin with
        | none => none
        | some (d1, travel) =>
          some ({ s2 with drivers := updateStore s2.drivers did d1 },
            [⟨t + travel, .pickup rid did⟩, ⟨t + r.patience, .cancellation rid⟩])

/-- DriverRequest.do (event.py): notify REQUEST, ask the dispatcher for a
rider; if found the driver starts driving to the rider's origin and a Pickup
is scheduled. -/
def doDriverRequest (s : SimState) (t : Nat) (did : String) : Option (SimState × List Event) :=
  match lookupStore s.drivers did with
  | none => none
  | some d =>
    let s1 := { s with monitor := s.monitor.notifyDriver t .request d.id d.location }
    let (found, s2) := request_rider s1 did
    match found with
    | none => some (s2, [])
    | some rid =>
      match lookupStore s2.riders rid with
      | none => none
      | some r =>
        match start_drive d r.origin with
        | none => none
        | some (d1, travel) =>
          some ({ s2 with drivers := updateStore s2.drivers did d1 },
            [⟨t + travel, .pickup rid did⟩])

/-- Cancellation.do (event.py): if the rider's status is not SATISFIED, set it
to CANCELLED, remove the rider from the waiting list, and notify CANCEL.
The source returns None; modelled as no spawned events. -/
def doCancellation (s : SimState) (t : Nat) (rid : String) : Option (SimState × List Event) :=
  match lookupStore s.riders rid with
  | none => none
  | some r =>
    if r.status ≠ .satisfied then
      let r1 : Rider := { r with status := .cancelled }
      let s1 := { s with riders := updateStore s.riders rid r1 }
      let s2 := cancel_ride s1 rid
      let s3 := { s2 with monitor := s2.monitor.notifyRider t .cancel r1.id (some r1.origin) }
      some (s3, [])
    else some (s, [])

/-- Pickup.do (event.py): if the rider is WAITING it becomes SATISFIED, both
PICKUP notifications fire, the driver starts the ride and a Dropoff is
scheduled; otherwise the driver becomes idle with no destination and an
immediate DriverRequest is spawned. -/
def doPickup (s : SimState) (t : Nat) (rid did : String) : Option (SimState × List Event) :=
  match lookupStore s.riders rid, lookupStore s.drivers did with
  | some r, some d =>
    if r.status = .waiting then
      let r1 : Rider := { r with status := .satisfied }
      let s1 := { s with riders := updateStore s.riders rid r1 }
      let m1 := (s1.monitor.notifyDriver t .pickup d.id (some r.origin)).notifyRider t .pickup r.id (some r.origin)
      let s2 := { s1 with monitor := m1 }
      match start_ride d r1 with
      | none => none
      | some (d1, travel) =>
        some ({ s2 with drivers := updateStore s2.drivers did d1 },
          [⟨t + travel, .dropoff did rid⟩])
    else
      let d1 : Driver := { d with is_idle := true, destination := none }
      some ({ s with drivers := updateStore s.drivers did d1 }, [⟨t, .driverRequest did⟩])
  | _, _ => none

/-- Dropoff.do (event.py): notify DROPOFF at the driver's destination, end the
ride (location := destination, idle := True), clear the destination, and spawn
an immediate DriverRequest. -/
def doDropoff (s : SimState) (t : Nat) (did : String) : Option (SimState × List Event) :=
  match lookupStore s.drivers did with
  | none => none
  | some d =>
    let s1 := { s with monitor := s.monitor.notifyDriver t .dropoff d.id d.destination }
    let d1 : Driver := { end_ride d with destination := none }
    some ({ s1 with drivers := updateStore s1.drivers did d1 }, [⟨t, .driverRequest did⟩])

/-- Event.do dispatch: execute one event on the shared state, returning the
updated state and the spawned events (`none` models an uncaught exception). -/
def doEvent (s : SimState) (e : Event) : Option (SimState × List Event) :=
  match e.kind with
  | .riderRequest rid => doRiderRequest s e.timestamp rid
  | .driverRequest did => doDriverRequest s e.timestamp did
  | .cancellation rid => doCancellation s e.timestamp rid
  | .pickup rid did => doPickup s e.timestamp rid did
  | .dropoff did _ => doDropoff s e.timestamp did

/-- Event.__lt__ (event.py): comparison solely on the timestamp. -/
def Event.lt (a b : Event) : Bool := decide (a.timestamp < b.timestamp)

/-- Event.__le__ (event.py): comparison solely on the timestamp.  This is the
complement of `Event.lt` swapped, which is the order a stable sort by
`__lt__` realizes. -/
def Event.le (a b : Event) : Bool := decide (a.timestamp ≤ b.timestamp)

/-- PriorityQueue.add (container.py): `self._items.append(item)` followed by
`self._items.sort()`.  Python's `list.sort` is a stable sort driven by
`__lt__`; it is modelled by the (stable) `List.mergeSort` with the
complementary `le`. -/
def pq_add {α : Type} (le : α → α → Bool) (items : List α) (item : α) : List α :=
  (items ++ [item]).mergeSort le

/-- PriorityQueue.remove (container.py): `self._items.pop(0)`; `none` models
the IndexError on an empty queue. -/
def pq_remove {α : Type} : List α → Option (α × List α)
  | [] => none
  | x :: xs => some (x, xs)

/-- PriorityQueue.is_empty (container.py). -/
def pq_is_empty {α : Type} (items : List α) : Bool := items.length == 0

/-- Ordering used by the engine's event queue: events compare by timestamp
only.  The `Nat` component tags each inserted event with its insertion index
(the role Python object identity plays); the comparison ignores it. -/
def taggedLE (a b : Event × Nat) : Bool := Event.le a.1 b.1

/-- The queue contents after adding a whole sequence of (tagged) events to an
initially empty PriorityQueue. -/
def pq_add_all (es : List (Event × Nat)) : List (Event × Nat) :=
  es.foldl (pq_add taggedLE) []

/-- Removal order of the event queue: strictly earlier timestamp, or equal
timestamp and inserted earlier (FIFO on ties). -/
def lexBefore (a b : Event × Nat) : Prop :=
  a.1.timestamp < b.1.timestamp ∨ (a.1.timestamp = b.1.timestamp ∧ a.2 < b.2)

/-- The FIFO-on-ties discipline: whenever two events share a timestamp, the
one with the smaller insertion tag comes first. -/
def tieLT (a b : Event × Nat) : Prop :=
  a.1.timestamp = b.1.timestamp → a.2 < b.2

/-- The wait contributed by one rider's activity list in
Monitor._average_wait_time (monitor.py): second activity time minus first. -/
def waitOf : List Activity → Int
  | a0 :: a1 :: _ => (a1.time : Int) - (a0.time : Int)
  | _ => 0

/-- Monitor._average_wait_time (monitor.py): average over riders with at least
two activities; `none` models the ZeroDivisionError when no rider qualifies. -/
def average_wait_time (m : Monitor) : Option Rat :=
  let qual := (m.riderActs.map (·.2)).filter (fun acts => 2 ≤ acts.length)
  if qual.length = 0 then none
  else some (((qual.map waitOf).sum : Rat) / (qual.length : Rat))

/-- The inner while loop of Monitor._average_total_distance: sum of Manhattan
distances between consecutive activity locations; `none` models the
AttributeError if a recorded location is `None`. -/
def consecDist : List Activity → Option Nat
  | a :: b :: rest => do
    let l1 ← a.location
    let l2 ← b.location
    let d ← consecDist (b :: rest)
    pure (manhattan_distance l1 l2 + d)
  | _ => some 0

/-- Monitor._average_total_distance (monitor.py): `none` models the
ZeroDivisionError when no driver has any activity record. -/
def average_total_distance (m : Monitor) : Option Rat :=
  match (m.driverActs.map (·.2)).mapM consecDist with
  | none => none
  | some ds =>
    if m.driverActs.length = 0 then none
    else some ((ds.sum : Rat) / (m.driverActs.length : Rat))

/-- The inner while loop of Monitor._average_ride_distance: the index advances
by one each step, adding the distance of each consecutive PICKUP→DROPOFF
pair. -/
def rideDist : List Activity → Option Nat
  | a :: b :: rest =>
    if a.description = .pickup ∧ b.description = .dropoff then do
      let l1 ← a.location
      let l2 ← b.location
      let d ← rideDist (b :: rest)
      pure (manhattan_distance l1 l2 + d)
    else rideDist (b :: rest)
  | _ => some 0

/-- Monitor._average_ride_distance (monitor.py). -/
def average_ride_distance (m : Monitor) : Option Rat :=
  match (m.driverActs.map (·.2)).mapM rideDist with
  | none => none
  | some ds =>
    if m.driverActs.length = 0 then none
    else some ((ds.sum : Rat) / (m.driverActs.length : Rat))

/-- Monitor.report (monitor.py): the three aggregates; `none` if any of them
raises. -/
def report (m : Monitor) : Option (Rat × Rat × Rat) := do
  let w ← average_wait_time m
  let t ← average_total_distance m
  let r ← average_ride_distance m
  pure (w, t, r)

/-- The driver invariant of the spec's data model: destination is absent
whenever the idle flag is set. -/
def driverInv (d : Driver) : Prop := d.is_idle = true → d.destination = none

/-- The property "t is the integer nearest to m / s, with ties broken uniformly
to the even neighbour": |2m − 2ts| ≤ s, with equality (a tie) only for even t.
Stated over naturals as the two one-sided inequalities. -/
def isNearestHalfEven (m s t : Nat) : Prop :=
  2 * m ≤ 2 * (t * s) + s ∧ 2 * (t * s) ≤ 2 * m + s ∧
    ((2 * m = 2 * (t * s) + s ∨ 2 * (t * s) = 2 * m + s) → t % 2 = 0)

/-! Concrete states used by counterexamples and witnesses. -/

/-- A registered driver that is not idle (busy). -/
def busyDriver : Driver := ⟨"d1", some ⟨0, 0⟩, 1, none, false⟩

/-- A dispatcher state with one registered driver, which is busy. -/
def busyState : SimState := ⟨[], [("d1", busyDriver)], ["d1"], [], ⟨[], []⟩⟩

/-- A dispatcher state with no registered driver. -/
def emptyState : SimState := ⟨[], [], [], [], ⟨[], []⟩⟩

/-- A sample rider. -/
def riderBob : Rider := Rider.init "r1" ⟨3, 4⟩ ⟨5, 6⟩ 10

/-- A busy registered driver 5 Manhattan units from the origin (0,0). -/
def busyCloser : Driver := ⟨"d1", some ⟨0, 5⟩, 1, some ⟨9, 9⟩, false⟩

/-- An idle registered driver also 5 units from the origin, registered later. -/
def idleFar : Driver := ⟨"d2", some ⟨0, 5⟩, 1, none, true⟩

/-- A dispatcher state where a busy driver ties an idle driver's minimal
travel time and precedes it in registration order. -/
def tieState : SimState := ⟨[], [("d1", busyCloser), ("d2", idleFar)], ["d1", "d2"], [], ⟨[], []⟩⟩

/-- The rider requesting from `tieState`, at origin (0,0). -/
def tieRider : Rider := Rider.init "r1" ⟨0, 0⟩ ⟨5, 5⟩ 10

/-- The empty monitor (a fresh `Monitor()`). -/
def emptyMonitor : Monitor := ⟨[], []⟩

/-- A monitor where one rider has a single REQUEST activity and no driver has
any activity. -/
def monitorOneRequest : Monitor := ⟨[("r1", [⟨.request, 0, "r1", some ⟨0, 0⟩⟩])], []⟩

/-- A mid-ride driver: not idle, with a destination set. -/
def midRideDriver : Driver := ⟨"d9", some ⟨0, 0⟩, 1, some ⟨2, 3⟩, false⟩

/-! Basic store lemmas. -/

theorem lookupStore_update {β : Type} (l : List (String × β)) (i j : String) (v : β) :
    lookupStore (updateStore l i v) j =
      if j = i then (lookupStore l i).map (fun _ => v) else lookupStore l j := by
  induction l with
  | nil => simp [lookupStore, updateStore]
  | cons p rest ih =>
    simp only [updateStore, lookupStore]
    by_cases hk : p.1 = i
    · by_cases hj : j = i
      · subst hj; simp [lookupStore, hk]
      · have hj' : p.1 ≠ j := by rw [hk]; exact fun h => hj h.symm
        have hij : i ≠ j := fun h => hj h.symm
        simp [lookupStore, hk, hj, hj', hij, ih]
    · by_cases hj : p.1 = j
      · have hji : j ≠ i := by rw [← hj]; exact hk
        simp [lookupStore, hk, hj, hji]
      · simp [lookupStore, hk, hj, ih]

theorem mem_updateStore {β : Type} {l : List (String × β)} {i : String} {v : β} :
    ∀ p ∈ updateStore l i v, p.2 = v ∨ p ∈ l := by
  induction l with
  | nil => intro p hp; simp [updateStore] at hp
  | cons q rest ih =>
    intro p hp
    simp only [updateStore, List.mem_cons] at hp
    rcases hp with hp | hp
    · by_cases hq : q.1 = i
      · rw [if_pos hq] at hp; subst hp; left; rfl
      · rw [if_neg hq] at hp; subst hp; right; exact List.mem_cons_self _ _
    · rcases ih p hp with h | h
      · left; exact h
      · right; exact List.mem_cons_of_mem _ h

theorem getActs_addActivity (m : List (String × List Activity)) (i : String) (a : Activity) :
    getActs (addActivity m i a) i = getActs m i ++ [a] := by
  induction m with
  | nil => simp [getActs, addActivity, lookupStore]
  | cons p rest ih =>
    by_cases hp : p.1 = i
    · simp [getActs, addActivity, lookupStore, hp]
    · simp only [addActivity, beq_iff_eq, hp, if_false]
      simpa [getActs, lookupStore, hp] using ih

theorem minList_ne_none {x : Nat} {t : List Nat} : minList (x :: t) ≠ none := by
  simp only [minList]
  cases minList t <;> simp

theorem minList_mem : ∀ {xs : List Nat} {v : Nat}, minList xs = some v → v ∈ xs := by
  intro xs
  induction xs with
  | nil => intro v h; simp [minList] at h
  | cons x t ih =>
    intro v h
    simp only [minList] at h
    cases ht : minList t with
    | none => rw [ht] at h; simp at h; simp [h]
    | some m =>
      rw [ht] at h; simp at h
      rcases min_choice x m with hm | hm
      · rw [hm] at h; simp [h]
      · rw [hm] at h; subst h; exact List.mem_cons_of_mem _ (ih ht)

theorem minList_le : ∀ {xs : List Nat} {v : Nat}, minList xs = some v → ∀ x ∈ xs, v ≤ x := by
  intro xs
  induction xs with
  | nil => intro v _ x hx; simp at hx
  | cons y t ih =>
    intro v h x hx
    simp only [minList] at h
    cases ht : minList t with
    | none =>
      rw [ht] at h; simp at h
      cases t with
      | nil => simp at hx; subst h; omega
      | cons a b => exact absurd ht minList_ne_none
    | some m =>
      rw [ht] at h; simp at h; subst h
      rcases List.mem_cons.1 hx with rfl | hx'
      · exact Nat.min_le_left _ _
      · exact le_trans (Nat.min_le_right _ _) (ih ht x hx')

theorem minList_isSome {xs : List Nat} (h : xs ≠ []) : ∃ v, minList xs = some v := by
  cases xs with
  | nil => exact absurd rfl h
  | cons x t =>
    simp only [minList]
    cases minList t with
    | none => exact ⟨x, rfl⟩
    | some m => exact ⟨min x m, rfl⟩

/-! Claim C2: the busy-registry edge case of `request_driver`. -/

/-- C2: the claim states that whenever no registered driver is idle,
`request_driver` enqueues the rider and returns None without failing.  The
code does this only when the registry is empty; with a registered but busy
driver it reaches `min([])`, which raises ValueError (modelled by `none`).
This theorem evaluates both branches at the failing input. -/
theorem C2_busy_registry_raises :
    request_driver busyState "r1" riderBob = none ∧
    request_driver emptyState "r1" riderBob =
      some (none, { emptyState with waiting_riders := ["r1"] }) := by
  decide

/-! Claim C3: the selection loop of `request_driver`. -/

/-- C3 counterexample: with a busy driver registered before an idle one and
tying its minimal travel time, `request_driver` returns the busy driver, so
the claim "returns an idle driver" fails at this concrete input. -/
theorem C3_counterexample_busy_selected :
    request_driver tieState "r1" tieRider = some (some ("d1", busyCloser), tieState) ∧
    busyCloser.is_idle = false := by
  decide

/-! Claim C5: Monitor.report on an empty record. -/

/-- C5: the claim states that `report()` returns a defined (zero) value when
no rider has two activities or no driver has any activity.  The code instead
divides by zero (`wait_time / count` with `count == 0`), raising
ZeroDivisionError, modelled by `none`: it fails on the fresh monitor and on a
monitor holding a single rider REQUEST. -/
theorem C5_report_divides_by_zero :
    report emptyMonitor = none ∧
    average_wait_time emptyMonitor = none ∧
    average_total_distance emptyMonitor = none ∧
    report monitorOneRequest = none := by
  decide

/-! Claim C6: the rounding rule of `get_travel_time`. -/

theorem roundHalfEven_nearest (m s : Nat) (hs : 0 < s) :
    isNearestHalfEven m s (roundHalfEven m s) ∧
    ∀ t', isNearestHalfEven m s t' → t' = roundHalfEven m s := by
  have keyLt : ∀ a b : Nat, a < b → a * s + s ≤ b * s := by
    intro a b h
    have h2 : (a + 1) * s ≤ b * s := Nat.mul_le_mul_right s h
    calc a * s + s = (a + 1) * s := by ring
      _ ≤ b * s := h2
  have keyLe : ∀ a b : Nat, a ≤ b → a * s ≤ b * s := fun a b h => Nat.mul_le_mul_right s h
  have hm2 : m / s * s + m % s = m := Nat.div_add_mod' m s
  have hr : m % s < s := Nat.mod_lt _ hs
  have hsucc : (m / s + 1) * s = m / s * s + s := by ring
  have hsucc2 : (m / s + 2) * s = m / s * s + 2 * s := by ring
  simp only [roundHalfEven, isNearestHalfEven]
  split_ifs with h1 h2 h3
  · refine ⟨⟨by omega, by omega, by omega⟩, ?_⟩
    intro t' ⟨u1, u2, u3⟩
    rcases Nat.lt_trichotomy t' (m / s) with h | h | h
    · have := keyLt t' (m / s) h
      omega
    · exact h
    · have := keyLt (m / s) t' h
      omega
  · refine ⟨⟨by omega, by omega, by omega⟩, ?_⟩
    intro t' ⟨u1, u2, u3⟩
    rcases Nat.lt_or_ge t' (m / s + 1) with h | h
    · have := keyLe t' (m / s) (by omega)
      omega
    · rcases Nat.lt_or_ge (m / s + 1) t' with h' | h'
      · have := keyLe (m / s + 2) t' (by omega)
        omega
      · omega
  · refine ⟨⟨by omega, by omega, by omega⟩, ?_⟩
    intro t' ⟨u1, u2, u3⟩
    rcases Nat.lt_trichotomy t' (m / s) with h | h | h
    · have := keyLt t' (m / s) h
      omega
    · exact h
    · rcases Nat.lt_or_ge (m / s + 1) t' with h' | h'
      · have := keyLe (m / s + 2) t' (by omega)
        omega
      · have ht' : t' = m / s + 1 := by omega
        subst ht'
        have hpar : (m / s + 1) % 2 = 0 := u3 (Or.inr (by omega))
        omega
  · refine ⟨⟨by omega, by omega, by omega⟩, ?_⟩
    intro t' ⟨u1, u2, u3⟩
    rcases Nat.lt_trichotomy t' (m / s) with h | h | h
    · have := keyLt t' (m / s) h
      omega
    · have hpar := u3 (Or.inl (by subst h; omega))
      omega
    · rcases Nat.lt_or_ge (m / s + 1) t' with h' | h'
      · have := keyLe (m / s + 2) t' (by omega)
        omega
      · omega

/-- C6: for a driver with a location and positive integer speed,
`get_travel_time` returns the Manhattan distance to the destination divided by
the speed, rounded to the nearest integer, with the single uniform tie rule
"half to even" (Python's `round`); the rounding is characterised by
`isNearestHalfEven` and is unique, so one consistent rule is applied at every
input. -/
theorem C6_travel_time_nearest_half_even (d : Driver) (dest l : Location)
    (hl : d.location = some l) (hs : 0 < d.speed) :
    ∃ t, get_travel_time d dest = some t ∧
      isNearestHalfEven (manhattan_distance l dest) d.speed t ∧
      ∀ t', isNearestHalfEven (manhattan_distance l dest) d.speed t' → t' = t := by
  have h := roundHalfEven_nearest (manhattan_distance l dest) d.speed hs
  refine ⟨roundHalfEven (manhattan_distance l dest) d.speed, ?_, h.1, h.2⟩
  have hne : d.speed ≠ 0 := Nat.pos_iff_ne_zero.mp hs
  simp [get_travel_time, hl, hne]

/-- C6 witness: the doctest driver at (1,2) with speed 2 and destination
(3,4); the travel time 2 is the unique half-to-even rounding of 4 / 2. -/
theorem C6_travel_time_witness :
    (Driver.init "D" ⟨1, 2⟩ 2).location = some ⟨1, 2⟩ ∧ 0 < (Driver.init "D" ⟨1, 2⟩ 2).speed ∧
    ∃ t, get_travel_time (Driver.init "D" ⟨1, 2⟩ 2) ⟨3, 4⟩ = some t ∧
      isNearestHalfEven (manhattan_distance ⟨1, 2⟩ ⟨3, 4⟩) (Driver.init "D" ⟨1, 2⟩ 2).speed t ∧
      ∀ t', isNearestHalfEven (manhattan_distance ⟨1, 2⟩ ⟨3, 4⟩) (Driver.init "D" ⟨1, 2⟩ 2).speed t' → t' = t :=
  ⟨rfl, by decide, C6_travel_time_nearest_half_even (Driver.init "D" ⟨1, 2⟩ 2) ⟨3, 4⟩ ⟨1, 2⟩ rfl (by decide)⟩

/-! Frame lemmas: which state components each operation can touch. -/

theorem cancel_ride_fields (s : SimState) (rid : String) :
    (cancel_ride s rid).riders = s.riders ∧ (cancel_ride s rid).drivers = s.drivers ∧
    (cancel_ride s rid).monitor = s.monitor ∧
    (cancel_ride s rid).available_drivers = s.available_drivers := by
  simp only [cancel_ride]
  split_ifs <;> simp

theorem request_rider_fields (s : SimState) (did : String) :
    (request_rider s did).2.riders = s.riders ∧ (request_rider s did).2.drivers = s.drivers ∧
    (request_rider s did).2.monitor = s.monitor := by
  simp only [request_rider]
  by_cases h : did ∈ s.available_drivers <;> simp only [h, if_true, if_false] <;>
    cases s.waiting_riders <;> simp

theorem request_driver_fields {s : SimState} {rid : String} {r : Rider} {od : Option (String × Driver)} {s' : SimState}
    (h : request_driver s rid r = some (od, s')) :
    s'.riders = s.riders ∧ s'.drivers = s.drivers ∧ s'.monitor = s.monitor ∧
    s'.available_drivers = s.available_drivers := by
  simp only [request_driver] at h
  split_ifs at h with hlen
  · simp only [Option.some.injEq, Prod.mk.injEq] at h
    obtain ⟨-, h2⟩ := h
    subst h2
    simp
  · split at h
    · exact absurd h (by simp)
    · split at h
      · exact absurd h (by simp)
      · split at h
        · exact absurd h (by simp)
        · split at h
          · exact absurd h (by simp)
          · simp only [Option.some.injEq, Prod.mk.injEq] at h
            obtain ⟨-, h2⟩ := h
            subst h2
            exact ⟨rfl, rfl, rfl, rfl⟩

theorem start_drive_spec {d : Driver} {loc : Location} {d1 : Driver} {t : Nat}
    (h : start_drive d loc = some (d1, t)) :
    d1 = { d with destination := some loc, is_idle := false } := by
  simp only [start_drive] at h
  cases hg : get_travel_time { d with destination := some loc, is_idle := false } loc with
  | none => rw [hg] at h; simp at h
  | some a => rw [hg] at h; simp at h; exact h.1.symm

theorem start_ride_spec {d : Driver} {r : Rider} {d1 : Driver} {t : Nat}
    (h : start_ride d r = some (d1, t)) :
    d1 = { d with is_idle := false, location := some r.origin, destination := some r.destination } := by
  simp only [start_ride] at h
  cases hg : get_travel_time { d with is_idle := false, location := some r.origin, destination := some r.destination } r.destination with
  | none => rw [hg] at h; simp at h
  | some a => rw [hg] at h; simp at h; exact h.1.symm

/-! Characterisations of the five event handlers, as far as the claims need. -/

theorem doRiderRequest_spec {s : SimState} {t : Nat} {rid : String} {s' : SimState} {evs : List Event}
    (h : doRiderRequest s t rid = some (s', evs)) :
    s'.riders = s.riders ∧
    (s'.drivers = s.drivers ∨
      ∃ did d1, d1.is_idle = false ∧ s'.drivers = updateStore s.drivers did d1) := by
  simp only [doRiderRequest] at h
  split at h
  · exact absurd h (by simp)
  next r hr =>
    split at h
    · exact absurd h (by simp)
    next od s2 hreq =>
      obtain ⟨f1, f2, -, -⟩ := request_driver_fields hreq
      split at h
      · simp only [Option.some.injEq, Prod.mk.injEq] at h
        obtain ⟨h2, -⟩ := h
        subst h2
        exact ⟨f1, Or.inl f2⟩
      next did d =>
        split at h
        · exact absurd h (by simp)
        next d1 travel hsd =>
          simp only [Option.some.injEq, Prod.mk.injEq] at h
          obtain ⟨h2, -⟩ := h
          subst h2
          refine ⟨f1, Or.inr ⟨did, d1, ?_, by rw [f2]⟩⟩
          rw [start_drive_spec hsd]

theorem doDriverRequest_spec {s : SimState} {t : Nat} {did : String} {s' : SimState} {evs : List Event}
    (h : doDriverRequest s t did = some (s', evs)) :
    s'.riders = s.riders ∧
    (s'.drivers = s.drivers ∨
      ∃ did' d1, d1.is_idle = false ∧ s'.drivers = updateStore s.drivers did' d1) := by
  simp only [doDriverRequest] at h
  split at h
  · exact absurd h (by simp)
  next d hd =>
    obtain ⟨f1, f2, -⟩ := request_rider_fields
      { s with monitor := s.monitor.notifyDriver t Desc.request d.id d.location } did
    split at h
    · simp only [Option.some.injEq, Prod.mk.injEq] at h
      obtain ⟨h2, -⟩ := h
      subst h2
      exact ⟨f1, Or.inl f2⟩
    next rid =>
      split at h
      · exact absurd h (by simp)
      next r hrr =>
        split at h
        · exact absurd h (by simp)
        next d1 travel hsd =>
          simp only [Option.some.injEq, Prod.mk.injEq] at h
          obtain ⟨h2, -⟩ := h
          subst h2
          refine ⟨f1, Or.inr ⟨did, d1, ?_, by rw [f2]⟩⟩
          rw [start_drive_spec hsd]

theorem doCancellation_spec {s : SimState} {t : Nat} {rid : String} {s' : SimState} {evs : List Event}
    (h : doCancellation s t rid = some (s', evs)) :
    ∃ r, lookupStore s.riders rid = some r ∧ evs = [] ∧ s'.drivers = s.drivers ∧
      ((r.status = .satisfied ∧ s' = s) ∨
       (r.status ≠ .satisfied ∧
        s'.riders = updateStore s.riders rid { r with status := .cancelled } ∧
        getActs s'.monitor.riderActs r.id =
          getActs s.monitor.riderActs r.id ++ [⟨.cancel, t, r.id, some r.origin⟩])) := by
  simp only [doCancellation] at h
  split at h
  · exact absurd h (by simp)
  next r hr =>
    refine ⟨r, hr, ?_⟩
    split_ifs at h with hst
    · simp only [Option.some.injEq, Prod.mk.injEq] at h
      obtain ⟨h2, h3⟩ := h
      subst h2
      obtain ⟨c1, c2, c3, -⟩ := cancel_ride_fields { s with riders := updateStore s.riders rid { r with status := .cancelled } } rid
      refine ⟨h3.symm, by rw [c2], Or.inr ⟨hst, by rw [c1], ?_⟩⟩
      rw [c3]
      exact getActs_addActivity _ _ _
    · simp only [Option.some.injEq, Prod.mk.injEq] at h
      obtain ⟨h2, h3⟩ := h
      subst h2
      exact ⟨h3.symm, rfl, Or.inl ⟨not_not.mp hst, rfl⟩⟩

theorem doPickup_spec {s : SimState} {t : Nat} {rid did : String} {s' : SimState} {evs : List Event}
    (h : doPickup s t rid did = some (s', evs)) :
    ∃ r d, lookupStore s.riders rid = some r ∧ lookupStore s.drivers did = some d ∧
      ((r.status = .waiting ∧
        s'.riders = updateStore s.riders rid { r with status := .satisfied } ∧
        ∃ d1 travel, start_ride d { r with status := .satisfied } = some (d1, travel) ∧
          s'.drivers = updateStore s.drivers did d1 ∧ evs = [⟨t + travel, .dropoff did rid⟩]) ∨
       (r.status ≠ .waiting ∧ s'.riders = s.riders ∧
        s'.drivers = updateStore s.drivers did { d with is_idle := true, destination := none } ∧
        evs = [⟨t, .driverRequest did⟩])) := by
  simp only [doPickup] at h
  split at h
  next r d hr hd =>
    refine ⟨r, d, hr, hd, ?_⟩
    split_ifs at h with hst
    · split at h
      · exact absurd h (by simp)
      next d1 travel hsr =>
        simp only [Option.some.injEq, Prod.mk.injEq] at h
        obtain ⟨h2, h3⟩ := h
        subst h2
        exact Or.inl ⟨hst, rfl, d1, travel, hsr, rfl, h3.symm⟩
    · simp only [Option.some.injEq, Prod.mk.injEq] at h
      obtain ⟨h2, h3⟩ := h
      subst h2
      exact Or.inr ⟨hst, rfl, rfl, h3.symm⟩
  next hno =>
    exact absurd h (by simp)

theorem doDropoff_spec {s : SimState} {t : Nat} {did : String} {s' : SimState} {evs : List Event}
    (h : doDropoff s t did = some (s', evs)) :
    ∃ d, lookupStore s.drivers did = some d ∧
      s'.riders = s.riders ∧
      s'.drivers = updateStore s.drivers did { end_ride d with destination := none } ∧
      evs = [⟨t, .driverRequest did⟩] ∧
      s'.monitor.driverActs = addActivity s.monitor.driverActs d.id ⟨.dropoff, t, d.id, d.destination⟩ ∧
      s'.monitor.riderActs = s.monitor.riderActs ∧
      s'.available_drivers = s.available_drivers ∧ s'.waiting_riders = s.waiting_riders := by
  simp only [doDropoff] at h
  split at h
  · exact absurd h (by simp)
  next d hd =>
    simp only [Option.some.injEq, Prod.mk.injEq] at h
    obtain ⟨h2, h3⟩ := h
    subst h2
    exact ⟨d, hd, rfl, rfl, h3.symm, rfl, rfl, rfl, rfl⟩

/-! Claim C4: rider status is monotone. -/

/-- C4: a rider starts WAITING (`Rider.init`), and executing any event either
leaves a rider's status unchanged or moves it from WAITING to CANCELLED or
SATISFIED; in particular a status that is already CANCELLED or SATISFIED is
never changed again, so a Cancellation executed after a Pickup leaves the
status SATISFIED. -/
theorem C4_rider_status_monotone :
    (∀ name o dst p, (Rider.init name o dst p).status = .waiting) ∧
    (∀ s e s' evs rid r r', doEvent s e = some (s', evs) →
      lookupStore s.riders rid = some r → lookupStore s'.riders rid = some r' →
      (r'.status = r.status ∨
        (r.status = .waiting ∧ (r'.status = .cancelled ∨ r'.status = .satisfied)))) := by
  constructor
  · intro name o dst p
    rfl
  · intro s e s' evs rid r r' h hr hr'
    obtain ⟨t, kind⟩ := e
    simp only [doEvent] at h
    cases kind with
    | riderRequest rid0 =>
      obtain ⟨f1, -⟩ := doRiderRequest_spec h
      rw [f1, hr] at hr'
      injection hr' with hh
      subst hh
      exact Or.inl rfl
    | driverRequest did0 =>
      obtain ⟨f1, -⟩ := doDriverRequest_spec h
      rw [f1, hr] at hr'
      injection hr' with hh
      subst hh
      exact Or.inl rfl
    | cancellation rid0 =>
      obtain ⟨r0, hr0, -, -, hcase⟩ := doCancellation_spec h
      rcases hcase with ⟨hsat, rfl⟩ | ⟨hne, hupd, -⟩
      · rw [hr] at hr'
        injection hr' with hh
        subst hh
        exact Or.inl rfl
      · rw [hupd, lookupStore_update] at hr'
        by_cases hrr : rid = rid0
        · subst hrr
          rw [hr0] at hr'
          simp only [Option.map_some'] at hr'
          injection hr' with hh
          subst hh
          rw [hr0] at hr
          injection hr with hh2
          subst hh2
          cases hst : r0.status with
          | waiting => exact Or.inr ⟨rfl, Or.inl rfl⟩
          | cancelled => exact Or.inl rfl
          | satisfied => exact absurd hst hne
        · rw [if_neg hrr, hr] at hr'
          injection hr' with hh
          subst hh
          exact Or.inl rfl
    | pickup rid0 did0 =>
      obtain ⟨r0, d0, hr0, hd0, hcase⟩ := doPickup_spec h
      rcases hcase with ⟨hw, hupd, -⟩ | ⟨-, hriders, -, -⟩
      · rw [hupd, lookupStore_update] at hr'
        by_cases hrr : rid = rid0
        · subst hrr
          rw [hr0] at hr'
          simp only [Option.map_some'] at hr'
          injection hr' with hh
          subst hh
          rw [hr0] at hr
          injection hr with hh2
          subst hh2
          exact Or.inr ⟨hw, Or.inr rfl⟩
        · rw [if_neg hrr, hr] at hr'
          injection hr' with hh
          subst hh
          exact Or.inl rfl
      · rw [hriders, hr] at hr'
        injection hr' with hh
        subst hh
        exact Or.inl rfl
    | dropoff did0 rid0 =>
      obtain ⟨d0, hd0, f1, -⟩ := doDropoff_spec h
      rw [f1, hr] at hr'
      injection hr' with hh
      subst hh
      exact Or.inl rfl

/-- A rider that has already been picked up (status SATISFIED). -/
def satisfiedRider : Rider := ⟨"R", ⟨0, 5⟩, ⟨0, 15⟩, .satisfied, 100⟩

/-- A state after a Pickup: the rider is SATISFIED. -/
def lateCancelState : SimState := ⟨[("R", satisfiedRider)], [], [], [], ⟨[], []⟩⟩

/-- C4 witness: delivering a late Cancellation to a SATISFIED rider leaves the
status SATISFIED (the no-op branch runs and the state is unchanged). -/
theorem C4_rider_status_monotone_witness :
    doEvent lateCancelState ⟨101, .cancellation "R"⟩ = some (lateCancelState, []) ∧
    (satisfiedRider.status = satisfiedRider.status ∨
      (satisfiedRider.status = .waiting ∧
        (satisfiedRider.status = .cancelled ∨ satisfiedRider.status = .satisfied))) :=
  ⟨by decide,
   C4_rider_status_monotone.2 lateCancelState ⟨101, .cancellation "R"⟩ lateCancelState []
     "R" satisfiedRider satisfiedRider (by decide) (by decide) (by decide)⟩

/-! Claim C7: request_rider registration and FIFO dequeue. -/

/-- C7: `request_rider` registers the calling driver on its first call, adds no
duplicate on a repeated call by the same driver, returns None on an empty
waiting list, and otherwise dequeues and returns the front (longest-waiting)
rider of the FIFO waiting list. -/
theorem C7_request_rider_register_once_fifo (s : SimState) (did : String) :
    (did ∉ s.available_drivers →
      (request_rider s did).2.available_drivers = s.available_drivers ++ [did]) ∧
    did ∈ (request_rider s did).2.available_drivers ∧
    (request_rider (request_rider s did).2 did).2.available_drivers =
      (request_rider s did).2.available_drivers ∧
    (s.waiting_riders = [] →
      (request_rider s did).1 = none ∧ (request_rider s did).2.waiting_riders = []) ∧
    (∀ rid rest, s.waiting_riders = rid :: rest →
      (request_rider s did).1 = some rid ∧ (request_rider s did).2.waiting_riders = rest) := by
  have havail : ∀ s0 : SimState, (request_rider s0 did).2.available_drivers =
      if did ∈ s0.available_drivers then s0.available_drivers
      else s0.available_drivers ++ [did] := by
    intro s0
    simp only [request_rider]
    by_cases h : did ∈ s0.available_drivers <;> simp only [h, if_true, if_false] <;>
      cases s0.waiting_riders <;> simp
  have hmem : did ∈ (request_rider s did).2.available_drivers := by
    rw [havail]
    split_ifs with h
    · exact h
    · simp
  refine ⟨?_, hmem, ?_, ?_, ?_⟩
  · intro h
    rw [havail, if_neg h]
  · rw [havail ((request_rider s did).2), if_pos hmem]
  · intro hw
    by_cases h : did ∈ s.available_drivers <;> simp [request_rider, h, hw]
  · intro rid rest hw
    by_cases h : did ∈ s.available_drivers <;> simp [request_rider, h, hw]

/-- A dispatcher state with two waiting riders and no registered driver. -/
def queueState : SimState := ⟨[], [], [], ["r1", "r2"], ⟨[], []⟩⟩

/-- C7 witness: a first call from driver "d7" on `queueState` registers it and
dequeues the longest-waiting rider "r1", leaving ["r2"]. -/
theorem C7_request_rider_witness :
    (request_rider queueState "d7").2.available_drivers = queueState.available_drivers ++ ["d7"] ∧
    (request_rider queueState "d7").1 = some "r1" ∧
    (request_rider queueState "d7").2.waiting_riders = ["r2"] :=
  ⟨(C7_request_rider_register_once_fifo queueState "d7").1 (by decide),
   ((C7_request_rider_register_once_fifo queueState "d7").2.2.2.2 "r1" ["r2"] rfl).1,
   ((C7_request_rider_register_once_fifo queueState "d7").2.2.2.2 "r1" ["r2"] rfl).2⟩

/-! Claim C8: execution of a Dropoff event. -/

/-- C8: executing a Dropoff whose driver has a destination records a DROPOFF
activity for the driver at that destination, moves the driver there, clears
the destination (and sets it idle), and spawns exactly one DriverRequest with
the same timestamp; riders are untouched. -/
theorem C8_dropoff_exec (s : SimState) (t : Nat) (did rid : String) (d : Driver) (dest : Location)
    (hd : lookupStore s.drivers did = some d) (hdest : d.destination = some dest) :
    ∃ s', doEvent s ⟨t, .dropoff did rid⟩ = some (s', [⟨t, .driverRequest did⟩]) ∧
      lookupStore s'.drivers did =
        some { d with location := some dest, destination := none, is_idle := true } ∧
      getActs s'.monitor.driverActs d.id =
        getActs s.monitor.driverActs d.id ++ [⟨.dropoff, t, d.id, some dest⟩] ∧
      s'.riders = s.riders := by
  simp only [doEvent, doDropoff, hd]
  refine ⟨_, rfl, ?_, ?_, rfl⟩
  · rw [lookupStore_update, if_pos rfl, hd]
    simp [end_ride, hdest]
  · simp only [Monitor.notifyDriver]
    rw [hdest]
    exact getActs_addActivity _ _ _

/-- A driver mid-ride towards (0,15). -/
def rideDriverC8 : Driver := ⟨"D", some ⟨0, 5⟩, 1, some ⟨0, 15⟩, false⟩

/-- A state in which driver "D" is mid-ride. -/
def dropState : SimState := ⟨[], [("D", rideDriverC8)], ["D"], [], ⟨[], []⟩⟩

/-- C8 witness: the Dropoff at t = 16 for the mid-ride driver. -/
theorem C8_dropoff_witness :
    ∃ s', doEvent dropState ⟨16, .dropoff "D" "R"⟩ = some (s', [⟨16, .driverRequest "D"⟩]) ∧
      lookupStore s'.drivers "D" =
        some { rideDriverC8 with location := some ⟨0, 15⟩, destination := none, is_idle := true } ∧
      getActs s'.monitor.driverActs rideDriverC8.id =
        getActs dropState.monitor.driverActs rideDriverC8.id ++ [⟨.dropoff, 16, rideDriverC8.id, some ⟨0, 15⟩⟩] ∧
      s'.riders = dropState.riders :=
  C8_dropoff_exec dropState 16 "D" "R" rideDriverC8 ⟨0, 15⟩ (by decide) rfl

/-! Claim C9: the driver invariant "idle implies no destination". -/

/-- C9 counterexample: `end_ride` alone does not preserve the invariant.  For
the concrete mid-ride driver (invariant holds: it is not idle), `end_ride`
sets the idle flag but leaves the destination set, so the claim that every
Driver operation preserves the invariant fails at this input. -/
theorem C9_counterexample_end_ride :
    driverInv midRideDriver ∧
    (end_ride midRideDriver).is_idle = true ∧
    (end_ride midRideDriver).destination = some ⟨2, 3⟩ ∧
    ¬ driverInv (end_ride midRideDriver) := by
  refine ⟨?_, rfl, rfl, ?_⟩
  · intro h
    simp [midRideDriver] at h
  · intro h
    have := h rfl
    simp [end_ride, midRideDriver] at this

/-- C9 amended: the invariant "idle implies no destination" holds after
construction, is established by start_drive and start_ride, is preserved by
end_drive and by the execution of every event kind (Dropoff and the
cancelled-rider branch of Pickup restore idle together with a cleared
destination) — but `end_ride` alone is excluded: it sets the idle flag and
leaves the destination to be cleared by its caller, Dropoff.do. -/
theorem C9_driver_invariant_amended :
    (∀ i loc sp, driverInv (Driver.init i loc sp)) ∧
    (∀ d loc d1 t, start_drive d loc = some (d1, t) → driverInv d1) ∧
    (∀ d : Driver, driverInv d → driverInv (end_drive d)) ∧
    (∀ d r d1 t, start_ride d r = some (d1, t) → driverInv d1) ∧
    (∀ s e s' evs, doEvent s e = some (s', evs) →
      (∀ p ∈ s.drivers, driverInv p.2) → ∀ p ∈ s'.drivers, driverInv p.2) := by
  refine ⟨?_, ?_, ?_, ?_, ?_⟩
  · intro i loc sp h
    rfl
  · intro d loc d1 t h
    rw [start_drive_spec h]
    intro hh
    simp at hh
  · intro d h
    intro hh
    exact h hh
  · intro d r d1 t h
    rw [start_ride_spec h]
    intro hh
    simp at hh
  · intro s e s' evs h hinv
    obtain ⟨t, kind⟩ := e
    simp only [doEvent] at h
    cases kind with
    | riderRequest rid0 =>
      obtain ⟨-, hd⟩ := doRiderRequest_spec h
      rcases hd with hd | ⟨did, d1, hidle, hd⟩
      · rw [hd]; exact hinv
      · rw [hd]
        intro p hp
        rcases mem_updateStore p hp with hpv | hpm
        · rw [hpv]; intro hh; rw [hidle] at hh; exact absurd hh (by simp)
        · exact hinv p hpm
    | driverRequest did0 =>
      obtain ⟨-, hd⟩ := doDriverRequest_spec h
      rcases hd with hd | ⟨did, d1, hidle, hd⟩
      · rw [hd]; exact hinv
      · rw [hd]
        intro p hp
        rcases mem_updateStore p hp with hpv | hpm
        · rw [hpv]; intro hh; rw [hidle] at hh; exact absurd hh (by simp)
        · exact hinv p hpm
    | cancellation rid0 =>
      obtain ⟨r0, -, -, hd, -⟩ := doCancellation_spec h
      rw [hd]; exact hinv
    | pickup rid0 did0 =>
      obtain ⟨r0, d0, -, -, hcase⟩ := doPickup_spec h
      rcases hcase with ⟨-, -, d1, travel, hsr, hd, -⟩ | ⟨-, -, hd, -⟩
      · rw [hd]
        intro p hp
        rcases mem_updateStore p hp with hpv | hpm
        · rw [hpv, start_ride_spec hsr]; intro hh; simp at hh
        · exact hinv p hpm
      · rw [hd]
        intro p hp
        rcases mem_updateStore p hp with hpv | hpm
        · rw [hpv]; intro _; rfl
        · exact hinv p hpm
    | dropoff did0 rid0 =>
      obtain ⟨d0, -, -, hd, -⟩ := doDropoff_spec h
      rw [hd]
      intro p hp
      rcases mem_updateStore p hp with hpv | hpm
      · rw [hpv]; intro _; rfl
      · exact hinv p hpm

/-- The state `dropState` evolves to after the Dropoff at t = 16. -/
def dropResultState : SimState :=
  ⟨[], [("D", ⟨"D", some ⟨0, 15⟩, 1, none, true⟩)], ["D"], [],
   ⟨[], [("D", [⟨.dropoff, 16, "D", some ⟨0, 15⟩⟩])]⟩⟩

/-- C9 witness: executing the Dropoff on `dropState` (all of whose drivers
satisfy the invariant) yields a state all of whose drivers satisfy it. -/
theorem C9_driver_invariant_witness :
    doEvent dropState ⟨16, .dropoff "D" "R"⟩ = some (dropResultState, [⟨16, .driverRequest "D"⟩]) ∧
    ∀ p ∈ dropResultState.drivers, driverInv p.2 :=
  ⟨by decide,
   C9_driver_invariant_amended.2.2.2.2 dropState ⟨16, .dropoff "D" "R"⟩ dropResultState
     [⟨16, .driverRequest "D"⟩] (by decide)
     (by intro p hp; simp [dropState, rideDriverC8] at hp; rw [hp]; intro hh; simp at hh)⟩

/-! Claim C10: Cancellation.do is a no-op only for SATISFIED riders. -/

/-- C10: executing a Cancellation on a SATISFIED rider changes nothing, but on
a rider whose status is already CANCELLED the cancellation branch runs again:
the status is re-assigned CANCELLED (the rider record is unchanged) and a
second CANCEL activity is appended to that rider's monitor log — so
Cancellation.do is not idempotent with respect to the monitor state. -/
theorem C10_cancellation_not_idempotent (s : SimState) (t : Nat) (rid : String) (r : Rider)
    (hr : lookupStore s.riders rid = some r) :
    (r.status = .satisfied → doEvent s ⟨t, .cancellation rid⟩ = some (s, [])) ∧
    (r.status = .cancelled → ∃ s', doEvent s ⟨t, .cancellation rid⟩ = some (s', []) ∧
      lookupStore s'.riders rid = some r ∧
      getActs s'.monitor.riderActs r.id =
        getActs s.monitor.riderActs r.id ++ [⟨.cancel, t, r.id, some r.origin⟩]) := by
  constructor
  · intro hst
    simp [doEvent, doCancellation, hr, hst]
  · intro hst
    have hne : r.status ≠ .satisfied := by rw [hst]; simp
    have hsame : { r with status := Status.cancelled } = r := by
      obtain ⟨i, o, dst, st, p⟩ := r
      simp only [Rider.mk.injEq, and_true, true_and]
      exact hst.symm
    simp only [doEvent, doCancellation, hr]
    rw [if_pos hne]
    refine ⟨_, rfl, ?_, ?_⟩
    · obtain ⟨c1, -, -, -⟩ := cancel_ride_fields
        { s with riders := updateStore s.riders rid { r with status := Status.cancelled } } rid
      rw [c1]
      show lookupStore (updateStore s.riders rid { r with status := Status.cancelled }) rid = some r
      rw [lookupStore_update, if_pos rfl, hr, hsame]
      rfl
    · obtain ⟨-, -, c3, -⟩ := cancel_ride_fields
        { s with riders := updateStore s.riders rid { r with status := Status.cancelled } } rid
      simp only [Monitor.notifyRider]
      rw [c3]
      exact getActs_addActivity _ _ _

/-- An already-cancelled rider. -/
def cancelledRider : Rider := ⟨"R", ⟨1, 1⟩, ⟨2, 2⟩, .cancelled, 5⟩

/-- A state whose rider is already CANCELLED, with REQUEST and CANCEL already
recorded by the monitor. -/
def cancelledState : SimState :=
  ⟨[("R", cancelledRider)], [], [], [],
   ⟨[("R", [⟨.request, 0, "R", some ⟨1, 1⟩⟩, ⟨.cancel, 5, "R", some ⟨1, 1⟩⟩])], []⟩⟩

/-- C10 witness: a second Cancellation on the already-cancelled rider appends
a second CANCEL activity to its log while the rider record stays CANCELLED. -/
theorem C10_cancellation_witness :
    ∃ s', doEvent cancelledState ⟨9, .cancellation "R"⟩ = some (s', []) ∧
      lookupStore s'.riders "R" = some cancelledRider ∧
      getActs s'.monitor.riderActs cancelledRider.id =
        getActs cancelledState.monitor.riderActs cancelledRider.id ++
          [⟨.cancel, 9, cancelledRider.id, some cancelledRider.origin⟩] :=
  (C10_cancellation_not_idempotent cancelledState 9 "R" cancelledRider (by decide)).2 rfl

/-! Claim C3 (amended): what `request_driver` actually selects. -/

theorem idleTimes_some {ds : List (String × Driver)} {o : Location}
    (h : ∀ p ∈ ds, ∃ t, get_travel_time p.2 o = some t) :
    ∃ ts, idleTimes ds o = some ts ∧
      ∀ x, x ∈ ts ↔ ∃ p ∈ ds, p.2.is_idle = true ∧ get_travel_time p.2 o = some x := by
  induction ds with
  | nil => exact ⟨[], rfl, by simp⟩
  | cons p rest ih =>
    obtain ⟨ts, hts, hiff⟩ := ih (fun q hq => h q (List.mem_cons_of_mem _ hq))
    by_cases hidle : p.2.is_idle
    · obtain ⟨t0, ht0⟩ := h p (List.mem_cons_self _ _)
      refine ⟨t0 :: ts, ?_, ?_⟩
      · simp only [idleTimes]
        rw [if_pos hidle, ht0, hts]
        rfl
      · intro x
        constructor
        · intro hx
          rcases List.mem_cons.1 hx with rfl | hx'
          · exact ⟨p, List.mem_cons_self _ _, hidle, ht0⟩
          · obtain ⟨q, hq, hqi, hqt⟩ := (hiff x).1 hx'
            exact ⟨q, List.mem_cons_of_mem _ hq, hqi, hqt⟩
        · rintro ⟨q, hq, hqi, hqt⟩
          rcases List.mem_cons.1 hq with rfl | hq'
          · rw [ht0] at hqt
            injection hqt with hh
            exact hh ▸ List.mem_cons_self _ _
          · exact List.mem_cons_of_mem _ ((hiff x).2 ⟨q, hq', hqi, hqt⟩)
    · refine ⟨ts, ?_, ?_⟩
      · simp only [idleTimes]
        rw [if_neg hidle]
        exact hts
      · intro x
        rw [hiff x]
        constructor
        · rintro ⟨q, hq, hqi, hqt⟩
          exact ⟨q, List.mem_cons_of_mem _ hq, hqi, hqt⟩
        · rintro ⟨q, hq, hqi, hqt⟩
          rcases List.mem_cons.1 hq with rfl | hq'
          · exact absurd hqi hidle
          · exact ⟨q, hq', hqi, hqt⟩

theorem selectFirst_finds {ds : List (String × Driver)} {o : Location} {v : Nat}
    (hall : ∀ p ∈ ds, ∃ t, get_travel_time p.2 o = some t)
    (hex : ∃ p ∈ ds, get_travel_time p.2 o = some v) :
    ∃ q, selectFirst ds o v = some (some q) ∧ q ∈ ds ∧ get_travel_time q.2 o = some v := by
  induction ds with
  | nil =>
    obtain ⟨p, hp, -⟩ := hex
    simp at hp
  | cons p rest ih =>
    obtain ⟨t0, ht0⟩ := hall p (List.mem_cons_self _ _)
    by_cases hv : t0 = v
    · refine ⟨p, ?_, List.mem_cons_self _ _, by rw [ht0, hv]⟩
      simp only [selectFirst, ht0]
      rw [if_pos hv]
    · have hex' : ∃ q ∈ rest, get_travel_time q.2 o = some v := by
        obtain ⟨q, hq, hqt⟩ := hex
        rcases List.mem_cons.1 hq with rfl | hq'
        · rw [ht0] at hqt
          injection hqt with hh
          exact absurd hh hv
        · exact ⟨q, hq', hqt⟩
      obtain ⟨q, hsel, hq, hqt⟩ := ih (fun z hz => hall z (List.mem_cons_of_mem _ hz)) hex'
      refine ⟨q, ?_, List.mem_cons_of_mem _ hq, hqt⟩
      simp only [selectFirst, ht0]
      rw [if_neg hv]
      exact hsel

/-- C3 amended: in a state with at least one idle registered driver (and
data-model-conforming drivers, so travel times are defined), `request_driver`
returns — without failing and without mutating the state — a registered
driver whose predicted travel time to the rider's origin equals the minimum
over the idle registered drivers; the returned driver is a tie of that
minimum but need NOT itself be idle, because the final selection loop
re-scans all registered drivers. -/
theorem C3_request_driver_min_time_amended (s : SimState) (rid : String) (r : Rider)
    (ds : List (String × Driver))
    (hres : resolveDrivers s.available_drivers s.drivers = some ds)
    (hwf : ∀ p ∈ ds, ∃ t, get_travel_time p.2 r.origin = some t)
    (hidle : ∃ p ∈ ds, p.2.is_idle = true) :
    ∃ q tmin, request_driver s rid r = some (some q, s) ∧ q ∈ ds ∧
      get_travel_time q.2 r.origin = some tmin ∧
      (∃ pi ∈ ds, pi.2.is_idle = true ∧ get_travel_time pi.2 r.origin = some tmin) ∧
      (∀ p ∈ ds, p.2.is_idle = true →
        ∀ t', get_travel_time p.2 r.origin = some t' → tmin ≤ t') := by
  have hne : ¬ s.available_drivers.length = 0 := by
    intro h0
    have hav : s.available_drivers = [] := List.length_eq_zero.mp h0
    rw [hav] at hres
    simp only [resolveDrivers, Option.some.injEq] at hres
    obtain ⟨p, hp, -⟩ := hidle
    rw [← hres] at hp
    simp at hp
  obtain ⟨ts, hts, hiff⟩ := idleTimes_some hwf
  have htsne : ts ≠ [] := by
    obtain ⟨p, hp, hpi⟩ := hidle
    obtain ⟨t0, ht0⟩ := hwf p hp
    intro hemp
    have hmem : t0 ∈ ts := (hiff t0).2 ⟨p, hp, hpi, ht0⟩
    rw [hemp] at hmem
    simp at hmem
  obtain ⟨v, hv⟩ := minList_isSome htsne
  obtain ⟨pi, hpi, hpii, hpit⟩ := (hiff v).1 (minList_mem hv)
  obtain ⟨q, hsel, hq, hqt⟩ := selectFirst_finds hwf ⟨pi, hpi, hpit⟩
  refine ⟨q, v, ?_, hq, hqt, ⟨pi, hpi, hpii, hpit⟩, ?_⟩
  · simp only [request_driver]
    rw [if_neg hne]
    simp only [hres, hts, hv, hsel]
  · intro p hp hpidle t' ht'
    exact minList_le hv t' ((hiff t').2 ⟨p, hp, hpidle, ht'⟩)

/-- C3 amended witness: on `tieState` (one busy driver and one idle driver,
both 5 units from the rider), `request_driver` succeeds and returns a
registered driver tying the idle minimum 5. -/
theorem C3_amended_witness :
    ∃ q tmin, request_driver tieState "r1" tieRider = some (some q, tieState) ∧
      q ∈ [("d1", busyCloser), ("d2", idleFar)] ∧
      get_travel_time q.2 tieRider.origin = some tmin ∧
      (∃ pi ∈ [("d1", busyCloser), ("d2", idleFar)], pi.2.is_idle = true ∧
        get_travel_time pi.2 tieRider.origin = some tmin) ∧
      (∀ p ∈ [("d1", busyCloser), ("d2", idleFar)], p.2.is_idle = true →
        ∀ t', get_travel_time p.2 tieRider.origin = some t' → tmin ≤ t') :=
  C3_request_driver_min_time_amended tieState "r1" tieRider [("d1", busyCloser), ("d2", idleFar)]
    (by decide)
    (by
      intro p hp
      rcases List.mem_cons.1 hp with rfl | hp2
      · exact ⟨5, rfl⟩
      · rcases List.mem_cons.1 hp2 with rfl | hp3
        · exact ⟨5, rfl⟩
        · simp at hp3)
    ⟨("d2", idleFar), by simp, rfl⟩

/-! Claim C1: the PriorityQueue removes events in timestamp order, FIFO on
ties.  Python's `list.sort` is stable; the model's `mergeSort` is stable, and
stability is extracted through `List.sublist_mergeSort`. -/

open List

theorem taggedLE_trans : ∀ (a b c : Event × Nat), taggedLE a b → taggedLE b c → taggedLE a c := by
  intro a b c hab hbc
  simp only [taggedLE, Event.le, decide_eq_true_eq] at *
  omega

theorem taggedLE_total : ∀ (a b : Event × Nat), taggedLE a b || taggedLE b a := by
  intro a b
  simp only [taggedLE, Event.le]
  by_cases h : a.1.timestamp ≤ b.1.timestamp
  · simp [h]
  · simp [h]
    omega

theorem pair_sublist_of_mem {γ : Type} {l : List γ} {a b : γ}
    (ha : a ∈ l) (hb : b ∈ l) (hne : a ≠ b) : [a, b] <+ l ∨ [b, a] <+ l := by
  induction l with
  | nil => simp at ha
  | cons c t ih =>
    rcases List.mem_cons.1 ha with rfl | ha'
    · have hb' : b ∈ t := by
        rcases List.mem_cons.1 hb with rfl | hb'
        · exact absurd rfl hne
        · exact hb'
      exact Or.inl (List.Sublist.cons₂ a (List.singleton_sublist.mpr hb'))
    · rcases List.mem_cons.1 hb with rfl | hb'
      · exact Or.inr (List.Sublist.cons₂ b (List.singleton_sublist.mpr ha'))
      · rcases ih ha' hb' with h | h
        · exact Or.inl (List.Sublist.cons c h)
        · exact Or.inr (List.Sublist.cons c h)

theorem pairwise_not_sublist_rev {γ : Type} :
    ∀ {l : List γ}, l.Nodup → l.Pairwise (fun a b => ¬ [b, a] <+ l) := by
  intro l h
  induction l with
  | nil => exact List.Pairwise.nil
  | cons c t ih =>
    obtain ⟨hc, ht⟩ := List.nodup_cons.1 h
    refine List.pairwise_cons.2 ⟨?_, ?_⟩
    · intro b hb hsub
      rcases List.sublist_cons_iff.1 hsub with h1 | ⟨rr, hr, h2⟩
      · exact hc (h1.subset (by simp))
      · have hb2 : b = c := by injection hr
        exact hc (hb2 ▸ hb)
    · refine (ih ht).imp_of_mem ?_
      intro a b ha hb hnab hsub
      rcases List.sublist_cons_iff.1 hsub with h1 | ⟨rr, hr, h2⟩
      · exact hnab h1
      · have hb2 : b = c := by injection hr
        exact hc (hb2 ▸ hb)

theorem mergeSort_tie_pairwise {l : List (Event × Nat)}
    (hQ : l.Pairwise tieLT) (hNe : l.Pairwise (fun a b => a.2 ≠ b.2)) :
    (l.mergeSort taggedLE).Pairwise tieLT := by
  have hperm : l.mergeSort taggedLE ~ l := List.mergeSort_perm l taggedLE
  have hNe' : (l.mergeSort taggedLE).Pairwise (fun a b => a.2 ≠ b.2) :=
    (List.Perm.pairwise_iff (fun h => h.symm) hperm).mpr hNe
  have hnd : (l.mergeSort taggedLE).Nodup := by
    have hl : l.Nodup := hNe.imp (fun h he => h (congrArg Prod.snd he))
    exact hperm.symm.nodup hl
  have hrev := pairwise_not_sublist_rev hnd
  refine (hNe'.and hrev).imp_of_mem ?_
  intro a b ha hb hab2 hts
  obtain ⟨hne, hnsub⟩ := hab2
  have ha' : a ∈ l := List.mem_mergeSort.1 ha
  have hb' : b ∈ l := List.mem_mergeSort.1 hb
  have hab : a ≠ b := fun h => hne (congrArg Prod.snd h)
  rcases pair_sublist_of_mem ha' hb' hab with hsub | hsub
  · exact (List.pairwise_pair.1 (List.Pairwise.sublist hsub hQ)) hts
  · exfalso
    apply hnsub
    refine List.sublist_mergeSort taggedLE_trans taggedLE_total ?_ hsub
    refine List.pairwise_pair.2 ?_
    simp only [taggedLE, Event.le, decide_eq_true_eq]
    omega

theorem pq_add_all_inv :
    ∀ (es q : List (Event × Nat)),
      q.Pairwise (fun a b => taggedLE a b = true) →
      q.Pairwise tieLT →
      q.Pairwise (fun a b => a.2 ≠ b.2) →
      es.Pairwise (fun a b => a.2 < b.2) →
      (∀ x ∈ q, ∀ e ∈ es, x.2 < e.2) →
      (es.foldl (pq_add taggedLE) q) ~ (q ++ es) ∧
      (es.foldl (pq_add taggedLE) q).Pairwise (fun a b => taggedLE a b = true) ∧
      (es.foldl (pq_add taggedLE) q).Pairwise tieLT := by
  intro es
  induction es with
  | nil =>
    intro q h1 h2 h3 h4 h5
    simp only [List.foldl_nil, List.append_nil]
    exact ⟨List.Perm.refl q, h1, h2⟩
  | cons e rest ih =>
    intro q h1 h2 h3 h4 h5
    simp only [List.foldl_cons]
    have hperm1 : pq_add taggedLE q e ~ q ++ [e] := List.mergeSort_perm _ _
    have hQqe : (q ++ [e]).Pairwise tieLT := by
      rw [List.pairwise_append]
      refine ⟨h2, List.pairwise_singleton _ _, ?_⟩
      intro x hx y hy
      rw [List.mem_singleton.1 hy]
      intro hts
      exact h5 x hx e (List.mem_cons_self _ _)
    have hNqe : (q ++ [e]).Pairwise (fun a b => a.2 ≠ b.2) := by
      rw [List.pairwise_append]
      refine ⟨h3, List.pairwise_singleton _ _, ?_⟩
      intro x hx y hy
      rw [List.mem_singleton.1 hy]
      exact Nat.ne_of_lt (h5 x hx e (List.mem_cons_self _ _))
    have hs' : (pq_add taggedLE q e).Pairwise (fun a b => taggedLE a b = true) :=
      List.sorted_mergeSort taggedLE_trans taggedLE_total _
    have ht' : (pq_add taggedLE q e).Pairwise tieLT := mergeSort_tie_pairwise hQqe hNqe
    have hn' : (pq_add taggedLE q e).Pairwise (fun a b => a.2 ≠ b.2) :=
      (List.Perm.pairwise_iff (fun h => h.symm) hperm1).mpr hNqe
    have hfresh' : ∀ x ∈ pq_add taggedLE q e, ∀ e' ∈ rest, x.2 < e'.2 := by
      intro x hx e' he'
      have hx' : x ∈ q ++ [e] := (List.Perm.mem_iff hperm1).1 hx
      rcases List.mem_append.1 hx' with hxq | hxe
      · exact h5 x hxq e' (List.mem_cons_of_mem _ he')
      · rw [List.mem_singleton.1 hxe]
        exact List.rel_of_pairwise_cons h4 he'
    obtain ⟨p1, p2, p3⟩ := ih (pq_add taggedLE q e) hs' ht' hn' h4.of_cons hfresh'
    refine ⟨?_, p2, p3⟩
    refine p1.trans ?_
    refine (hperm1.append_right rest).trans ?_
    exact List.Perm.of_eq (by simp)

/-- C1: adding any sequence of tagged events (tags record insertion order and
are ignored by the comparison, which is `Event.__lt__` on timestamps alone) to
an empty PriorityQueue yields a queue holding a permutation of the events in
which every pair respects `lexBefore`: non-decreasing timestamps, and among
equal timestamps the earlier-inserted event first.  Since `pq_remove` pops
the front, successive removals return exactly this order. -/
theorem C1_priority_queue_fifo_order (es : List (Event × Nat))
    (hseq : es.Pairwise (fun a b => a.2 < b.2)) :
    pq_add_all es ~ es ∧
    (pq_add_all es).Pairwise lexBefore ∧
    (∀ (x : Event × Nat) xs, pq_remove (x :: xs) = some (x, xs)) ∧
    pq_remove ([] : List (Event × Nat)) = none := by
  obtain ⟨p1, p2, p3⟩ := pq_add_all_inv es [] .nil .nil .nil hseq (by intro x hx; simp at hx)
  refine ⟨by simpa using p1, ?_, fun x xs => rfl, rfl⟩
  refine (p2.and p3).imp ?_
  intro a b hh
  obtain ⟨hle, htie⟩ := hh
  rcases Nat.lt_or_ge a.1.timestamp b.1.timestamp with h | h
  · exact Or.inl h
  · have hts : a.1.timestamp = b.1.timestamp := by
      have hle2 : a.1.timestamp ≤ b.1.timestamp := by
        simpa [taggedLE, Event.le] using hle
      omega
    exact Or.inr ⟨hts, htie hts⟩

/-- C1 witness: events A@5, B@5, C@3 inserted in that order with tags 0, 1, 2
satisfy the tag hypothesis, so the queue holds them sorted with A before B
(FIFO on the shared timestamp 5) and C first. -/
theorem C1_priority_queue_witness :
    pq_add_all [(⟨5, .cancellation "A"⟩, 0), (⟨5, .cancellation "B"⟩, 1), (⟨3, .cancellation "C"⟩, 2)] ~
      [(⟨5, .cancellation "A"⟩, 0), (⟨5, .cancellation "B"⟩, 1), (⟨3, .cancellation "C"⟩, 2)] ∧
    (pq_add_all [(⟨5, .cancellation "A"⟩, 0), (⟨5, .cancellation "B"⟩, 1), (⟨3, .cancellation "C"⟩, 2)]).Pairwise lexBefore ∧
    (∀ (x : Event × Nat) xs, pq_remove (x :: xs) = some (x, xs)) ∧
    pq_remove ([] : List (Event × Nat)) = none :=
  C1_priority_queue_fifo_order
    [(⟨5, .cancellation "A"⟩, 0), (⟨5, .cancellation "B"⟩, 1), (⟨3, .cancellation "C"⟩, 2)]
    (by decide)

end TaxiSim
